import Mathlib

/-!
Verification of the worker-side runtime (event routing and session lifecycle).

This file gives a shallow embedding, in Lean, of the parts of the repository
that the checked claims concern:

* a model of Python's `json.dumps` / `json.loads` as used by
  `finetune/utils/redis_client.py` and `finetune/events/__main__.py`
  (values are modelled by the inductive `Json`; numbers are integers);
* `EventListener.start` (the SSE control-channel reader loop) and
  `EventListener.on_event` (the dispatcher) from `finetune/events/__main__.py`;
* the retry loop of `EventsProcess.run_event_listener_with_redis` from
  `finetune/processes/events.py`;
* `RedisClient.publish` and `PubSubWrapper.get_message` from
  `finetune/utils/redis_client.py`;
* the conversation session registry (`start_conversation_thread`,
  `shutdown_conversation_thread`, `open_conversation_websocket`)
  from `ftw/ws/conversation.py`;
* `open_worker_websocket` from `ftw/ws/worker.py`.

Python strings are modelled as `List Char`; the registry dictionaries are
association lists; each `with thread_lock:` block of the source is one atomic
transition of the model.  Side-effecting callables invoked by a handler
(`worker_pong`, thread starts, ...) are oracles: an `Except PyErr Unit`
outcome supplied as a parameter, `.error` meaning the call raised.
-/

/-- JSON values, modelling the Python objects handled by `json.dumps` /
`json.loads` in the repository (numbers restricted to integers). -/
inductive Json where
  | null
  | bool (b : Bool)
  | num (n : Int)
  | str (s : String)
  | arr (elems : List Json)
  | obj (fields : List (String × Json))
deriving Repr

/-- Decimal digit character for `d < 10`. -/
def digitCh (d : Nat) : Char :=
  if d = 0 then '0' else if d = 1 then '1' else if d = 2 then '2'
  else if d = 3 then '3' else if d = 4 then '4' else if d = 5 then '5'
  else if d = 6 then '6' else if d = 7 then '7' else if d = 8 then '8'
  else '9'

/-- Numeric value of a decimal digit character. -/
def digitVal (c : Char) : Nat := c.toNat - 48

/-- Test for a decimal digit character. -/
def isDigitCh (c : Char) : Bool := 48 ≤ c.toNat && c.toNat ≤ 57

/-- Fuel-bounded digit accumulator: prepends the decimal digits of `n`
(most significant first) onto `acc`.  Fuel `n + 1` always suffices. -/
def natDigitsAux : Nat → Nat → List Char → List Char
  | 0, _, acc => acc
  | fuel + 1, n, acc =>
    if n < 10 then digitCh n :: acc
    else natDigitsAux fuel (n / 10) (digitCh (n % 10) :: acc)

/-- Decimal digit list of a natural number (most significant first),
as produced by Python's `str` / `json.dumps` for a non-negative int. -/
def natDigits (n : Nat) : List Char := natDigitsAux (n + 1) n []

/-- Decimal rendering of an integer, as in `json.dumps`. -/
def intChars (n : Int) : List Char :=
  if n < 0 then '-' :: natDigits n.natAbs else natDigits n.toNat

/-- Escape one character of a JSON string the way `json.dumps` does for
the characters the model covers; other characters are kept literal. -/
def escapeCh (c : Char) : List Char :=
  if c = '"' then ['\\', '"']
  else if c = '\\' then ['\\', '\\']
  else if c = '\n' then ['\\', 'n']
  else if c = '\t' then ['\\', 't']
  else if c = '\r' then ['\\', 'r']
  else [c]

/-- Escape a whole string body. -/
def escapeChars : List Char → List Char
  | [] => []
  | c :: cs => escapeCh c ++ escapeChars cs

/-- Render a JSON string literal (quotes plus escaped body). -/
def strChars (s : String) : List Char :=
  '"' :: escapeChars s.data ++ ['"']

mutual

/-- Render a JSON value exactly as `json.dumps(v)` does with the default
separators `", "` and `": "` (the form used by `RedisClient._serialize`). -/
def renderJ : Json → List Char
  | .null => ("null").data
  | .bool true => ("true").data
  | .bool false => ("false").data
  | .num n => intChars n
  | .str s => strChars s
  | .arr xs => '[' :: renderArr xs ++ [']']
  | .obj kvs => '\x7b' :: renderObj kvs ++ ['\x7d']

/-- Render the comma-separated elements of a JSON array. -/
def renderArr : List Json → List Char
  | [] => []
  | [x] => renderJ x
  | x :: y :: xs => renderJ x ++ ',' :: ' ' :: renderArr (y :: xs)

/-- Render the comma-separated fields of a JSON object. -/
def renderObj : List (String × Json) → List Char
  | [] => []
  | [(k, v)] => strChars k ++ ':' :: ' ' :: renderJ v
  | (k, v) :: f :: fs =>
      strChars k ++ ':' :: ' ' :: renderJ v ++ ',' :: ' ' :: renderObj (f :: fs)

end

/-- Drop leading space characters (the only whitespace the renderer emits
between tokens). -/
def skipSpaces (cs : List Char) : List Char := cs.dropWhile (fun c => c = ' ')

/-- Expect a fixed sequence of characters, returning the remainder. -/
def expectChars : List Char → List Char → Option (List Char)
  | [], cs => some cs
  | e :: es, c :: cs => if c = e then expectChars es cs else none
  | _ :: _, [] => none

/-- Unescape one character after a backslash in a JSON string literal. -/
def unescapeCh (c : Char) : Option Char :=
  if c = '"' then some '"'
  else if c = '\\' then some '\\'
  else if c = 'n' then some '\n'
  else if c = 't' then some '\t'
  else if c = 'r' then some '\r'
  else none

/-- Parse the body of a JSON string literal (after the opening quote) up to
and including the closing quote, returning the content and the remainder. -/
def parseStrBody : List Char → Option (List Char × List Char)
  | [] => none
  | c :: rest =>
    if c = '\\' then
      match rest with
      | [] => none
      | e :: rest2 =>
        match unescapeCh e with
        | some u =>
          match parseStrBody rest2 with
          | some (s, r) => some (u :: s, r)
          | none => none
        | none => none
    else if c = '"' then some ([], rest)
    else
      match parseStrBody rest with
      | some (s, r) => some (c :: s, r)
      | none => none

/-- Parse a run of decimal digits into a natural number, returning the
remainder; fails when no digit is present. -/
def parseNatFrom (cs : List Char) : Option (Nat × List Char) :=
  let ds := cs.takeWhile isDigitCh
  if ds.isEmpty then none
  else some (ds.foldl (fun a c => a * 10 + digitVal c) 0, cs.dropWhile isDigitCh)

/-- Head-character test used by the numeric branch of the value parser. -/
def headIsDigit (cs : List Char) : Bool :=
  match cs.head? with
  | some c => isDigitCh c
  | none => false

mutual

/-- Fuel-bounded recursive-descent parser for the JSON subset produced by the
renderer, modelling `json.loads` on the strings this system exchanges.  All
parse failures yield `none` (Python: `json.JSONDecodeError`). -/
def parseVal : Nat → List Char → Option (Json × List Char)
  | 0, _ => none
  | fuel + 1, cs =>
    match cs with
    | [] => none
    | c :: rest =>
      if c = 'n' then (expectChars ['u', 'l', 'l'] rest).map (fun r => (.null, r))
      else if c = 't' then (expectChars ['r', 'u', 'e'] rest).map (fun r => (.bool true, r))
      else if c = 'f' then (expectChars ['a', 'l', 's', 'e'] rest).map (fun r => (.bool false, r))
      else if c = '"' then
        match parseStrBody rest with
        | some (s, r) => some (.str ⟨s⟩, r)
        | none => none
      else if c = '[' then
        match parseElems fuel rest with
        | some (xs, r) => some (.arr xs, r)
        | none => none
      else if c = '\x7b' then
        match parseFields fuel rest with
        | some (kvs, r) => some (.obj kvs, r)
        | none => none
      else if c = '-' then
        match parseNatFrom rest with
        | some (n, r) => some (.num (-(n : Int)), r)
        | none => none
      else if isDigitCh c then
        match parseNatFrom (c :: rest) with
        | some (n, r) => some (.num (n : Int), r)
        | none => none
      else none

/-- Parse array elements up to and including the closing bracket. -/
def parseElems : Nat → List Char → Option (List Json × List Char)
  | 0, _ => none
  | fuel + 1, cs =>
    if cs.head? = some ']' then some ([], cs.tail)
    else
      match parseVal fuel cs with
      | none => none
      | some (v, rest) =>
        if rest.head? = some ']' then some ([v], rest.tail)
        else if rest.head? = some ',' then
          match parseElems fuel (skipSpaces rest.tail) with
          | some (vs, r) => some (v :: vs, r)
          | none => none
        else none

/-- Parse object fields up to and including the closing brace. -/
def parseFields : Nat → List Char → Option (List (String × Json) × List Char)
  | 0, _ => none
  | fuel + 1, cs =>
    if cs.head? = some '\x7d' then some ([], cs.tail)
    else if cs.head? = some '"' then
      match parseStrBody cs.tail with
      | none => none
      | some (k, afterKey) =>
        if afterKey.head? = some ':' then
          match parseVal fuel (skipSpaces afterKey.tail) with
          | none => none
          | some (v, rest) =>
            if rest.head? = some '\x7d' then some ([(⟨k⟩, v)], rest.tail)
            else if rest.head? = some ',' then
              match parseFields fuel (skipSpaces rest.tail) with
              | some (kvs, r) => some ((⟨k⟩, v) :: kvs, r)
              | none => none
            else none
        else none
    else none

end

/-- Model of `json.dumps(v, default=str)` as called by
`RedisClient._serialize`: the rendered character list. -/
def json_dumps (v : Json) : List Char := renderJ v

/-- Model of `json.loads` on a full document: leading spaces allowed, the
whole input must be consumed.  The fuel `3 * length + 3` dominates the
parser's recursion depth on any input it accepts. -/
def json_loads (cs : List Char) : Option Json :=
  match parseVal (3 * cs.length + 3) (skipSpaces cs) with
  | some (v, rest) => if skipSpaces rest = [] then some v else none
  | none => none

/-! ## Python-level helpers shared by the models -/

/-- Python exceptions relevant to the modelled code paths. -/
inductive PyErr where
  | nameError
  | attributeError
  | typeError
  | keyError
  | jsonDecodeError
  | handlerError (msg : String)
deriving Repr, DecidableEq

/-- Association-list lookup, modelling `d[k]` / `k in d` on a Python dict. -/
def lookupA {α : Type} : List (String × α) → String → Option α
  | [], _ => none
  | (k, v) :: rest, key => if k = key then some v else lookupA rest key

/-- Association-list update-or-insert, modelling `d[k] = v` (insertion order
preserved, as for a Python dict). -/
def setA {α : Type} : List (String × α) → String → α → List (String × α)
  | [], key, v => [(key, v)]
  | (k, w) :: rest, key, v =>
      if k = key then (k, v) :: rest else (k, w) :: setA rest key v

/-- Association-list removal, modelling `del d[k]` guarded by `k in d`. -/
def removeA {α : Type} : List (String × α) → String → List (String × α)
  | [], _ => []
  | (k, w) :: rest, key => if k = key then rest else (k, w) :: removeA rest key

/-- Field access on a JSON object (used in theorem statements). -/
def jget : Json → String → Option Json
  | .obj kvs, k => lookupA kvs k
  | _, _ => none

/-- Model of Python `x.get(k)`: lookup on a dict, `AttributeError` on any
other value. -/
def pyGet : Json → String → Except PyErr (Option Json)
  | .obj kvs, k => .ok (lookupA kvs k)
  | _, _ => .error .attributeError

/-- Model of Python `x[k]`: `KeyError` when the key is missing, `TypeError`
on a value that is not a dict. -/
def pyIndex (j : Json) (k : String) : Except PyErr Json :=
  match j with
  | .obj kvs =>
    match lookupA kvs k with
    | some v => .ok v
    | none => .error .keyError
  | _ => .error .typeError

/-- Python `x == "s"` for a value obtained from `.get`. -/
def isStr (o : Option Json) (s : String) : Bool :=
  match o with
  | some (.str t) => t = s
  | _ => false

/-- Single-quote character, written via its code point. -/
def squote : String := ⟨[Char.ofNat 39]⟩

/-- Model of Python `str(x)` for the JSON values this code interpolates into
response strings (containers are approximated by their JSON rendering; no
checked claim depends on the text of those strings). -/
def pyStr : Json → String
  | .null => "None"
  | .bool true => "True"
  | .bool false => "False"
  | .num n => ⟨intChars n⟩
  | .str s => s
  | .arr xs => ⟨renderJ (.arr xs)⟩
  | .obj kvs => ⟨renderJ (.obj kvs)⟩

/-! ## EventListener.on_event - the dispatcher (finetune/events/__main__.py) -/

/-- Outcome oracles for the side-effecting callables a dispatch branch may
invoke (`.error` = that call raised), plus the settings the responses
interpolate and the `redis_client` constructor argument. -/
structure HandlerEnv where
  workerId : String
  redisClient : Option Unit
  workerPong : Except PyErr Unit
  workerStartWs : Except PyErr Unit
  startConv : Except PyErr Unit
  shutdownConv : Except PyErr Unit

/-- JSON-RPC result response dict as built by `on_event`. -/
def rpcResult (result : Json) (reqId : Json) : Json :=
  .obj [("jsonrpc", .str "2.0"), ("result", result), ("id", reqId)]

/-- JSON-RPC error response dict as built by `on_event`. -/
def rpcError (code : Int) (msg : String) (reqId : Json) : Json :=
  .obj [("jsonrpc", .str "2.0"),
        ("error", .obj [("code", .num code), ("message", .str msg)]),
        ("id", reqId)]

/-- Model of `EventListener.on_event`.  `.ok r` is the returned response
dict; `.error e` models an uncaught Python exception propagating out of the
coroutine (there is no try/except anywhere in the source body). -/
def on_event (env : HandlerEnv) (data : Json) : Except PyErr Json :=
  match pyGet data "method" with
  | .error e => .error e
  | .ok method =>
    match pyGet data "params" with
    | .error e => .error e
    | .ok params0 =>
      let params := params0.getD (.obj [])
      match pyGet data "id" with
      | .error e => .error e
      | .ok reqId0 =>
        let reqId := reqId0.getD .null
        if isStr method "worker_ping" || isStr method "worker_ping_all_active" then
          match env.workerPong with
          | .error e => .error e
          | .ok _ => .ok (rpcResult (.str "pong") reqId)
        else if isStr method "worker_mcp_request" then
          match env.redisClient with
          | none =>
            .ok (rpcError (-32601) "Event listener pubsub not initialized" reqId)
          | some _ =>
            .ok (rpcResult (.str "MCP request processed") reqId)
        else if isStr method "worker_task_created" then
          .ok (rpcResult (.str ("Worker " ++ env.workerId ++ " received task")) reqId)
        else if isStr method "worker_start_websocket_thread" then
          match env.workerStartWs with
          | .error e => .error e
          | .ok _ =>
            .ok (rpcResult (.str ("Worker " ++ env.workerId ++ " websocket opened")) reqId)
        else if isStr method "conversation_open_websocket" then
          match pyGet params "content" with
          | .error e => .error e
          | .ok _content =>
            match pyGet params "conversation_id" with
            | .error e => .error e
            | .ok convId =>
              match env.startConv with
              | .error e => .error e
              | .ok _ =>
                .ok (rpcResult
                  (.str ("Conversation " ++ pyStr (convId.getD .null) ++ " websocket opened"))
                  reqId)
        else if isStr method "conversation_close_websocket" then
          match pyGet params "conversation_id" with
          | .error e => .error e
          | .ok convId =>
            match env.shutdownConv with
            | .error e => .error e
            | .ok _ =>
              .ok (rpcResult
                (.str ("Conversation " ++ pyStr (convId.getD .null) ++ " websocket closed"))
                reqId)
        else
          .ok (rpcError (-32601)
            ("Method " ++ squote ++ pyStr (method.getD .null) ++ squote ++ " not found")
            reqId)

/-- Effect path the dispatch of `data` invokes: the outcome of the callable
(and dict accesses) of the branch `on_event` selects.  Used to characterize
exactly which exceptions escape `on_event`. -/
def selectedOutcome (env : HandlerEnv) (data : Json) : Except PyErr Unit :=
  match pyGet data "method" with
  | .error e => .error e
  | .ok method =>
    match pyGet data "params" with
    | .error e => .error e
    | .ok params0 =>
      let params := params0.getD (.obj [])
      match pyGet data "id" with
      | .error e => .error e
      | .ok _ =>
        if isStr method "worker_ping" || isStr method "worker_ping_all_active" then
          env.workerPong
        else if isStr method "worker_mcp_request" then .ok ()
        else if isStr method "worker_task_created" then .ok ()
        else if isStr method "worker_start_websocket_thread" then env.workerStartWs
        else if isStr method "conversation_open_websocket" then
          match pyGet params "content" with
          | .error e => .error e
          | .ok _ =>
            match pyGet params "conversation_id" with
            | .error e => .error e
            | .ok _ => env.startConv
        else if isStr method "conversation_close_websocket" then
          match pyGet params "conversation_id" with
          | .error e => .error e
          | .ok _ => env.shutdownConv
        else .ok ()

/-! ## EventListener.start - the SSE control-channel reader -/

/-- Python whitespace as stripped by `str.strip()`. -/
def isPySpace (c : Char) : Bool :=
  c = ' ' || c = '\n' || c = '\t' || c = '\r' || c = '\x0b' || c = '\x0c'

/-- Model of Python `str.strip()`. -/
def pyStrip (cs : List Char) : List Char :=
  ((cs.dropWhile isPySpace).reverse.dropWhile isPySpace).reverse

/-- Boolean list-prefix test (Python `str.startswith`). -/
def startsWithL : List Char → List Char → Bool
  | [], _ => true
  | _ :: _, [] => false
  | p :: ps, c :: cs => p = c && startsWithL ps cs

/-- Termination status of the read loop in `EventListener.start`. -/
inductive ReadExit where
  | endOfStream
  | stopped
  | handlerRaised (e : PyErr)
deriving Repr, DecidableEq

/-- Model of the line loop of `EventListener.start`: each decoded line is
stripped; `data:` lines have the prefix dropped and the remainder parsed as
JSON and dispatched (`handler` = `on_event`; a `.error` outcome is an
exception that only the outer `except Exception` would see, ending the
stream, because the inner `try` catches `json.JSONDecodeError` alone);
parse failures are logged and skipped; heartbeat (`:`) and other lines are
ignored.  `stop` is the value of `_stop_event.is_set()` (nothing in this
loop sets it).  Returns the messages dispatched in order and how the loop
ended. -/
def readStream (handler : Json → Except PyErr Unit) (stop : Bool) :
    List (List Char) → List Json × ReadExit
  | [] => ([], .endOfStream)
  | line :: rest =>
    if stop then ([], .stopped)
    else
      let decoded := pyStrip line
      if startsWithL ['d', 'a', 't', 'a', ':'] decoded then
        let message := pyStrip (decoded.drop 5)
        match json_loads message with
        | some d =>
          match handler d with
          | .ok _ =>
            let (tr, ex) := readStream handler stop rest
            (d :: tr, ex)
          | .error e => ([d], .handlerRaised e)
        | none => readStream handler stop rest
      else readStream handler stop rest

/-- Specification-side description of the well-formed `data:` frames of a
stream, in order: strip each line, keep `data:` lines whose stripped
remainder parses as JSON. -/
def validFrames : List (List Char) → List Json
  | [] => []
  | line :: rest =>
    if startsWithL ['d', 'a', 't', 'a', ':'] (pyStrip line) then
      match json_loads (pyStrip ((pyStrip line).drop 5)) with
      | some d => d :: validFrames rest
      | none => validFrames rest
    else validFrames rest

/-! ## EventsProcess.run_event_listener_with_redis - the retry supervisor -/

/-- Outcome of one iteration of the supervisor's `while self.running:` body
in `EventsProcess.run_event_listener_with_redis`: its `try:` either raises
`asyncio.CancelledError` (line 99: `break`), raises any other exception -
a task failure re-raised at line 85 and logged at line 102 - or returns
after the listener stream closed normally, having dispatched some number
of messages (line 96). -/
inductive RunOutcome where
  | failed
  | closedNormally (dispatched : Nat)
  | cancelled
deriving Repr, DecidableEq

/-- Retry state of `run_event_listener_with_redis` (events.py lines
59-124), as the list of delays slept between runs given the current
`retry_delay` and the outcomes of the successive runs while `running`
holds.  `CancelledError` breaks out of the loop without sleeping; a failed
run and a normally closed run alike fall through - the except and the
normal-close branches both end at lines 119-122 - which sleep
`retry_delay` and then assign it `min(retry_delay * 2, max_delay)` with
`max_delay = 60`.  No branch of the function assigns the floor back to
`retry_delay`; at entry (line 61) it is 1. -/
def run_event_listener_delays (retry_delay : Nat) : List RunOutcome → List Nat
  | [] => []
  | .cancelled :: _ => []
  | .failed :: rest =>
      retry_delay :: run_event_listener_delays (min (retry_delay * 2) 60) rest
  | .closedNormally _ :: rest =>
      retry_delay :: run_event_listener_delays (min (retry_delay * 2) 60) rest

/-! ## RedisClient.publish / PubSubWrapper.get_message - the PubSub bridge -/

/-- Model of `RedisClient._serialize`: `json.dumps(data, default=str)`. -/
def redis_serialize (v : Json) : List Char := json_dumps v

/-- Raw message as delivered by the Redis transport to one subscriber
(`decode_responses=True`, so payloads are strings). -/
structure RawMsg where
  mtype : String
  channel : String
  payload : List Char
deriving Repr, DecidableEq

/-- Data field of a message returned by `get_message`: replaced by the
parsed JSON value when `json.loads` succeeds, kept raw otherwise. -/
inductive MsgData where
  | parsed (v : Json)
  | raw (payload : List Char)
deriving Repr

/-- Message as returned by `PubSubWrapper.get_message`. -/
structure Msg where
  mtype : String
  channel : String
  data : MsgData
deriving Repr

/-- One subscriber of the broker: its subscribed channels and its queue of
messages delivered but not yet polled. -/
structure Subscriber where
  channels : List String
  pending : List RawMsg
deriving Repr

/-- Effect of `RedisClient.publish channel message` on one subscriber: the
broker delivers the serialized payload, as a `message` frame, to every
subscriber of that channel (broadcast); others see nothing. -/
def publish (channel : String) (message : Json) (sub : Subscriber) : Subscriber :=
  if channel ∈ sub.channels then
    { sub with pending := sub.pending ++ [⟨"message", channel, redis_serialize message⟩] }
  else sub

/-- Model of `PubSubWrapper.get_message`: return the next delivered message
if one arrives within the timeout (`none` models a timeout); for a
`message` frame the data field is JSON-deserialized, keeping the original
payload when deserialization fails.  Every failure path returns instead of
raising. -/
def get_message (sub : Subscriber) : Option Msg × Subscriber :=
  match sub.pending with
  | [] => (none, sub)
  | r :: rest =>
    let m : Msg :=
      if r.mtype = "message" then
        match json_loads r.payload with
        | some v => ⟨r.mtype, r.channel, .parsed v⟩
        | none => ⟨r.mtype, r.channel, .raw r.payload⟩
      else ⟨r.mtype, r.channel, .raw r.payload⟩
    (some m, { sub with pending := rest })

/-! ## Conversation session registry (ftw/ws/conversation.py) -/

/-- Module-level shared state of ftw/ws/conversation.py:
`conversation_threads` (key → thread handle), `shutdown_events`
(key → Event, `true` = set), a counter yielding fresh thread handles, and
the log of thread handles ever started. -/
structure ConvState where
  conversation_threads : List (String × Nat)
  shutdown_events : List (String × Bool)
  nextThread : Nat
  spawned : List Nat
deriving Repr, DecidableEq

/-- Model of `start_conversation_thread` (one atomic `with thread_lock:`
section): when a thread is registered for the key, return it and change
nothing; otherwise create a fresh unset shutdown event, start a new thread
and register it. -/
def start_conversation_thread (key : String) (s : ConvState) : Nat × ConvState :=
  match lookupA s.conversation_threads key with
  | some t => (t, s)
  | none =>
    let t := s.nextThread
    (t, { conversation_threads := setA s.conversation_threads key t,
          shutdown_events := setA s.shutdown_events key false,
          nextThread := t + 1,
          spawned := s.spawned ++ [t] })

/-- Model of `shutdown_conversation_thread`: set the shutdown event if the
key has one - the source checks `conversation_id in shutdown_events`, not
the thread registry - else log a no-op.  It only flips the flag: it never
joins the thread or touches the registries. -/
def shutdown_conversation_thread (key : String) (s : ConvState) : ConvState :=
  match lookupA s.shutdown_events key with
  | some _ => { s with shutdown_events := setA s.shutdown_events key true }
  | none => s

/-- One outcome of `await asyncio.wait_for(websocket.recv(), timeout=10)`. -/
inductive RecvEvent where
  | timeout
  | connClosed
  | frame (raw : List Char)
deriving Repr, DecidableEq

/-- Exit cause of the receive loop of `open_conversation_websocket`. -/
inductive LoopExit where
  | shutdownObserved
  | closeInstructed
  | peerClosed
  | pyError (e : PyErr)
  | starved
deriving Repr, DecidableEq

/-- The `{"type": "prompt_response", "content": ...}` frame sent by
`respond_to_prompt`. -/
def prompt_response (response : Json) : Json :=
  .obj [("type", .str "prompt_response"), ("content", response)]

/-- A well-formed inbound `prompt_query` frame carrying `content`, as the
receive loop destructures it (`data["data"]["content"]`). -/
def promptQueryMsg (content : Json) : Json :=
  .obj [("type", .str "prompt_query"), ("data", .obj [("content", content)])]

/-- Receive loop of `open_conversation_websocket` (lines 88-108): check the
shutdown event at the loop head, then await one recv outcome: a timeout
re-checks the event; `ConnectionClosed` breaks; a frame is JSON-parsed
(failure here escapes the inner try, whose excepts cover only TimeoutError
and ConnectionClosed) and handled by type - `close` breaks, `prompt_query`
sends a derived response, others are ignored.  `handler` is the opaque
`AGENT_REGISTRY` callable; `flagAt i` is the value of
`shutdown_event.is_set()` at the i-th check, supplied externally because
`close` runs concurrently.  Returns the frames sent, in order, and the exit
cause. -/
def convLoop (handler : Json → Json) (flagAt : Nat → Bool) :
    Nat → List RecvEvent → List Json × LoopExit
  | i, events =>
    if flagAt i then ([], .shutdownObserved)
    else
      match events with
      | [] => ([], .starved)
      | e :: rest =>
        match e with
        | .timeout => convLoop handler flagAt (i + 1) rest
        | .connClosed => ([], .peerClosed)
        | .frame raw =>
          match json_loads raw with
          | none => ([], .pyError .jsonDecodeError)
          | some d =>
            match pyGet d "type" with
            | .error e2 => ([], .pyError e2)
            | .ok ty =>
              if isStr ty "close" then ([], .closeInstructed)
              else if isStr ty "prompt_query" then
                match pyIndex d "data" with
                | .error e2 => ([], .pyError e2)
                | .ok dd =>
                  match pyIndex dd "content" with
                  | .error e2 => ([], .pyError e2)
                  | .ok content =>
                    match convLoop handler flagAt (i + 1) rest with
                    | (sends, ex) => (prompt_response (handler content) :: sends, ex)
              else convLoop handler flagAt (i + 1) rest

/-- Exit cause of one conversation-unit run. -/
inductive UnitExit where
  | connectFailed
  | loopExit (ex : LoopExit)
deriving Repr, DecidableEq

/-- The `finally:` block of `open_conversation_websocket`: under the lock,
remove the key from `conversation_threads` if present.  Note that the
`shutdown_events` entry is left in place. -/
def conv_cleanup (key : String) (s : ConvState) : ConvState :=
  { s with conversation_threads := removeA s.conversation_threads key }

/-- Model of one full run of `open_conversation_websocket`: connect (a
failure is caught by `except Exception`), send the optional initial
response, run the receive loop, and always run the `finally:` cleanup.
Returns the frames sent, the exit cause and the state after cleanup. -/
def open_conversation_websocket (handler : Json → Json) (key : String)
    (content : Option Json) (connectOk : Bool) (flagAt : Nat → Bool)
    (events : List RecvEvent) (s : ConvState) :
    List Json × UnitExit × ConvState :=
  if connectOk then
    let initial := match content with
      | some c => [prompt_response (handler c)]
      | none => []
    match convLoop handler flagAt 0 events with
    | (sends, ex) => (initial ++ sends, .loopExit ex, conv_cleanup key s)
  else ([], .connectFailed, conv_cleanup key s)

/-! ## Worker session unit (ftw/ws/worker.py) -/

/-- Exit cause of `open_worker_websocket`. -/
inductive WorkerExit where
  | connectFailed
  | nameErrorCaught
  | loopFinished (ex : LoopExit)
deriving Repr, DecidableEq

/-- Model of `open_worker_websocket`: after a successful connect the code
evaluates the local name `content` at the initial-payload check
(`if content is not None:`, line 85), but the only assignment to `content`
in the function body sits inside the receive loop, which has not yet run,
so the name is unbound at that point - modelled by binding it to `none`
before the check - and evaluating it raises `UnboundLocalError` (a subclass
of `NameError`), caught by the enclosing `except Exception`.  The receive
loop of lines 88-108 (textually identical to the conversation loop, so
modelled by `convLoop`) is unreachable. -/
def open_worker_websocket (handler : Json → Json) (connectOk : Bool)
    (flagAt : Nat → Bool) (events : List RecvEvent) :
    List Json × WorkerExit :=
  if connectOk then
    let content : Option Json := none
    match content with
    | none => ([], .nameErrorCaught)
    | some c =>
      match convLoop handler flagAt 0 events with
      | (sends, ex) => (prompt_response (handler c) :: sends, .loopFinished ex)
  else ([], .connectFailed)


/-! ### Digit and decimal-rendering lemmas -/

theorem isDigitCh_digitCh (d : Nat) : isDigitCh (digitCh d) = true := by
  unfold digitCh
  split_ifs <;> decide

theorem digitVal_digitCh {d : Nat} (h : d < 10) : digitVal (digitCh d) = d := by
  unfold digitCh
  split_ifs with h0 h1 h2 h3 h4 h5 h6 h7 h8 <;> simp_all [digitVal] <;> omega

theorem natDigitsAux_shift (fuel : Nat) :
    ∀ n acc, natDigitsAux fuel n acc = natDigitsAux fuel n [] ++ acc := by
  induction fuel with
  | zero => intro n acc; simp [natDigitsAux]
  | succ fuel ih =>
    intro n acc
    simp only [natDigitsAux]
    split
    · simp
    · rw [ih (n / 10) (digitCh (n % 10) :: acc), ih (n / 10) [digitCh (n % 10)]]
      simp

theorem natDigitsAux_fuel_irrel :
    ∀ n fuel₁ fuel₂, n < fuel₁ → n < fuel₂ →
      natDigitsAux fuel₁ n [] = natDigitsAux fuel₂ n [] := by
  intro n
  induction n using Nat.strongRecOn with
  | _ n ih =>
    intro fuel₁ fuel₂ h₁ h₂
    match fuel₁, fuel₂ with
    | f₁ + 1, f₂ + 1 =>
      simp only [natDigitsAux]
      split
      · rfl
      · rw [natDigitsAux_shift f₁, natDigitsAux_shift f₂,
          ih (n / 10) (by omega) f₁ f₂ (by omega) (by omega)]

theorem natDigits_unfold (n : Nat) :
    natDigits n =
      if n < 10 then [digitCh n] else natDigits (n / 10) ++ [digitCh (n % 10)] := by
  unfold natDigits
  conv_lhs => rw [natDigitsAux]
  split
  · rfl
  · rw [natDigitsAux_shift n,
      natDigitsAux_fuel_irrel (n / 10) n (n / 10 + 1) (by omega) (by omega)]

theorem natDigits_all_digits (n : Nat) : ∀ c ∈ natDigits n, isDigitCh c = true := by
  induction n using Nat.strongRecOn with
  | _ n ih =>
    rw [natDigits_unfold]
    split
    · simp [isDigitCh_digitCh]
    · intro c hc
      rcases List.mem_append.mp hc with h | h
      · exact ih (n / 10) (by omega) c h
      · simp at h
        subst h
        exact isDigitCh_digitCh _

theorem natDigits_ne_nil (n : Nat) : natDigits n ≠ [] := by
  rw [natDigits_unfold]
  split
  · simp
  · simp

theorem natDigits_readback (n : Nat) :
    (natDigits n).foldl (fun a c => a * 10 + digitVal c) 0 = n := by
  induction n using Nat.strongRecOn with
  | _ n ih =>
    rw [natDigits_unfold]
    split
    · simp [digitVal_digitCh (by omega : n < 10)]
    · rw [List.foldl_append, ih (n / 10) (by omega)]
      simp [digitVal_digitCh (by omega : n % 10 < 10)]
      omega

theorem takeWhile_all_append (p : Char → Bool) :
    ∀ l r, (∀ c ∈ l, p c = true) →
      List.takeWhile p (l ++ r) = l ++ List.takeWhile p r := by
  intro l
  induction l with
  | nil => simp
  | cons c cs ih =>
    intro r h
    have hc : p c = true := h c (by simp)
    simp [List.takeWhile, hc, ih r (fun d hd => h d (by simp [hd]))]

theorem dropWhile_all_append (p : Char → Bool) :
    ∀ l r, (∀ c ∈ l, p c = true) →
      List.dropWhile p (l ++ r) = List.dropWhile p r := by
  intro l
  induction l with
  | nil => simp
  | cons c cs ih =>
    intro r h
    have hc : p c = true := h c (by simp)
    simp [List.dropWhile, hc, ih r (fun d hd => h d (by simp [hd]))]

theorem takeWhile_head_false (p : Char → Bool) (r : List Char)
    (h : ∀ c, r.head? = some c → p c = false) : List.takeWhile p r = [] := by
  cases r with
  | nil => rfl
  | cons c cs => simp [List.takeWhile, h c rfl]

theorem dropWhile_head_false (p : Char → Bool) (r : List Char)
    (h : ∀ c, r.head? = some c → p c = false) : List.dropWhile p r = r := by
  cases r with
  | nil => rfl
  | cons c cs => simp [List.dropWhile, h c rfl]

theorem headIsDigit_false_iff (r : List Char) :
    headIsDigit r = false ↔ ∀ c, r.head? = some c → isDigitCh c = false := by
  cases r with
  | nil => simp [headIsDigit]
  | cons c cs => simp [headIsDigit]

theorem parseNatFrom_natDigits (n : Nat) (rest : List Char)
    (h : headIsDigit rest = false) :
    parseNatFrom (natDigits n ++ rest) = some (n, rest) := by
  have hall := natDigits_all_digits n
  have hrest := (headIsDigit_false_iff rest).mp h
  unfold parseNatFrom
  rw [takeWhile_all_append _ _ _ hall, takeWhile_head_false _ _ hrest,
    dropWhile_all_append _ _ _ hall, dropWhile_head_false _ _ hrest]
  simp [natDigits_ne_nil n, natDigits_readback n]

/-! ### String-literal round trip -/

theorem parseStrBody_escape :
    ∀ s rest, parseStrBody (escapeChars s ++ '"' :: rest) = some (s, rest) := by
  intro s
  induction s with
  | nil =>
    intro rest
    show parseStrBody ('"' :: rest) = some ([], rest)
    rw [parseStrBody.eq_def]; simp
  | cons c cs ih =>
    intro rest
    by_cases h1 : c = '"'
    · subst h1
      simp only [escapeChars, escapeCh, if_pos rfl, List.cons_append, List.nil_append]
      rw [parseStrBody.eq_def]; simp [unescapeCh, ih rest]
    · by_cases h2 : c = '\\'
      · subst h2
        simp only [escapeChars, escapeCh, if_neg (by decide : ¬('\\' = '"')),
          if_pos rfl, List.cons_append, List.nil_append]
        rw [parseStrBody.eq_def]; simp [unescapeCh, ih rest]
      · by_cases h3 : c = '\n'
        · subst h3
          simp only [escapeChars, escapeCh, if_neg (by decide : ¬('\n' = '"')),
            if_neg (by decide : ¬('\n' = '\\')), if_pos rfl, List.cons_append,
            List.nil_append]
          rw [parseStrBody.eq_def]; simp [unescapeCh, ih rest]
        · by_cases h4 : c = '\t'
          · subst h4
            simp only [escapeChars, escapeCh, if_neg (by decide : ¬('\t' = '"')),
              if_neg (by decide : ¬('\t' = '\\')),
              if_neg (by decide : ¬('\t' = '\n')), if_pos rfl, List.cons_append,
              List.nil_append]
            rw [parseStrBody.eq_def]; simp [unescapeCh, ih rest]
          · by_cases h5 : c = '\r'
            · subst h5
              simp only [escapeChars, escapeCh, if_neg (by decide : ¬('\r' = '"')),
                if_neg (by decide : ¬('\r' = '\\')),
                if_neg (by decide : ¬('\r' = '\n')),
                if_neg (by decide : ¬('\r' = '\t')), if_pos rfl, List.cons_append,
                List.nil_append]
              rw [parseStrBody.eq_def]; simp [unescapeCh, ih rest]
            · simp only [escapeChars, escapeCh, if_neg h1, if_neg h2, if_neg h3,
                if_neg h4, if_neg h5, List.cons_append, List.nil_append]
              rw [parseStrBody.eq_def]; simp [h1, h2, ih rest]

/-! ### Leading-character facts about the renderer -/

theorem isDigitCh_excludes {c : Char} (h : isDigitCh c = true) :
    c ≠ ']' ∧ c ≠ '\x7d' ∧ c ≠ ',' ∧ c ≠ ' ' ∧ c ≠ 'n' ∧ c ≠ 't' ∧ c ≠ 'f' ∧
      c ≠ '"' ∧ c ≠ '[' ∧ c ≠ '\x7b' ∧ c ≠ '-' := by
  refine ⟨?_, ?_, ?_, ?_, ?_, ?_, ?_, ?_, ?_, ?_, ?_⟩ <;>
    (intro he; subst he; revert h; decide)

theorem natDigits_head (n : Nat) :
    ∃ c t, natDigits n = c :: t ∧ isDigitCh c = true := by
  rcases hne : natDigits n with _ | ⟨c, t⟩
  · exact absurd hne (natDigits_ne_nil n)
  · exact ⟨c, t, rfl, natDigits_all_digits n c (by rw [hne]; simp)⟩

theorem renderJ_head (v : Json) :
    ∃ c t, renderJ v = c :: t ∧ c ≠ ']' ∧ c ≠ '\x7d' ∧ c ≠ ',' ∧ c ≠ ' ' := by
  cases v with
  | null => exact ⟨'n', _, rfl, by decide, by decide, by decide, by decide⟩
  | bool b =>
    cases b with
    | true => exact ⟨'t', _, rfl, by decide, by decide, by decide, by decide⟩
    | false => exact ⟨'f', _, rfl, by decide, by decide, by decide, by decide⟩
  | num n =>
    show ∃ c t, intChars n = c :: t ∧ _
    unfold intChars
    split
    · exact ⟨'-', _, rfl, by decide, by decide, by decide, by decide⟩
    · obtain ⟨c, t, hct, hd⟩ := natDigits_head n.toNat
      obtain ⟨e1, e2, e3, e4, -⟩ := isDigitCh_excludes hd
      exact ⟨c, t, hct, e1, e2, e3, e4⟩
  | str s => exact ⟨'"', _, rfl, by decide, by decide, by decide, by decide⟩
  | arr xs =>
    exact ⟨'[', renderArr xs ++ [']'], by simp [renderJ], by decide, by decide,
      by decide, by decide⟩
  | obj kvs =>
    exact ⟨'\x7b', renderObj kvs ++ ['\x7d'], by simp [renderJ], by decide,
      by decide, by decide, by decide⟩

theorem renderJ_ne_nil (v : Json) : renderJ v ≠ [] := by
  obtain ⟨c, t, h, -⟩ := renderJ_head v
  simp [h]

theorem skipSpaces_renderJ (v : Json) (tail : List Char) :
    skipSpaces (renderJ v ++ tail) = renderJ v ++ tail := by
  obtain ⟨c, t, h, -, -, -, hsp⟩ := renderJ_head v
  simp [skipSpaces, h, List.dropWhile, hsp]

theorem renderArr_cons_head (y : Json) (xs : List Json) :
    ∃ t, renderArr (y :: xs) = renderJ y ++ t := by
  cases xs with
  | nil => exact ⟨[], by simp [renderArr]⟩
  | cons z zs => exact ⟨',' :: ' ' :: renderArr (z :: zs), by simp [renderArr]⟩

theorem skipSpaces_renderArr_cons (y : Json) (xs : List Json) (tail : List Char) :
    skipSpaces (renderArr (y :: xs) ++ tail) = renderArr (y :: xs) ++ tail := by
  obtain ⟨t, ht⟩ := renderArr_cons_head y xs
  rw [ht, List.append_assoc, skipSpaces_renderJ, ← List.append_assoc]

theorem skipSpaces_cons_space (l : List Char) : skipSpaces (' ' :: l) = skipSpaces l := by
  simp [skipSpaces, List.dropWhile]

theorem renderObj_cons_head (k : String) (v : Json) (fs : List (String × Json)) :
    ∃ t, renderObj ((k, v) :: fs) = strChars k ++ t := by
  cases fs with
  | nil => exact ⟨':' :: ' ' :: renderJ v, by simp [renderObj]⟩
  | cons f fs' =>
    exact ⟨':' :: ' ' :: renderJ v ++ ',' :: ' ' :: renderObj (f :: fs'),
      by simp [renderObj]⟩

theorem skipSpaces_strChars (k : String) (t : List Char) :
    skipSpaces (strChars k ++ t) = strChars k ++ t := by
  simp [strChars, skipSpaces, List.dropWhile]

theorem skipSpaces_renderObj_cons (f : String × Json)
    (fs : List (String × Json)) (tail : List Char) :
    skipSpaces (renderObj (f :: fs) ++ tail) = renderObj (f :: fs) ++ tail := by
  obtain ⟨k, v⟩ := f
  obtain ⟨t, ht⟩ := renderObj_cons_head k v fs
  rw [ht, List.append_assoc, skipSpaces_strChars, ← List.append_assoc]

theorem string_eta (s : String) : String.mk s.data = s := rfl

theorem headIsDigit_cons (c : Char) (l : List Char) :
    headIsDigit (c :: l) = isDigitCh c := rfl

/-- Joint fuel-indexed round-trip statement for values, array tails and
object tails. -/
theorem parse_render (fuel : Nat) :
    (∀ v rest, (renderJ v).length ≤ fuel → headIsDigit rest = false →
       parseVal fuel (renderJ v ++ rest) = some (v, rest)) ∧
    (∀ xs rest, (renderArr xs).length < fuel →
       parseElems fuel (renderArr xs ++ ']' :: rest) = some (xs, rest)) ∧
    (∀ kvs rest, (renderObj kvs).length < fuel →
       parseFields fuel (renderObj kvs ++ '\x7d' :: rest) = some (kvs, rest)) := by
  induction fuel with
  | zero =>
    refine ⟨?_, ?_, ?_⟩
    · intro v rest hlen _
      have := renderJ_ne_nil v
      interval_cases h : (renderJ v).length
      · simp at h; exact absurd h this
    · intro xs rest hlen; omega
    · intro kvs rest hlen; omega
  | succ fuel ih =>
    obtain ⟨ihV, ihA, ihO⟩ := ih
    refine ⟨?_, ?_, ?_⟩
    · -- values
      intro v rest hlen hrest
      cases v with
      | null =>
        show parseVal (fuel + 1) (['n', 'u', 'l', 'l'] ++ rest) = _
        rw [parseVal.eq_def]
        simp [expectChars]
      | bool b =>
        cases b with
        | true =>
          show parseVal (fuel + 1) (['t', 'r', 'u', 'e'] ++ rest) = _
          rw [parseVal.eq_def]
          simp [expectChars]
        | false =>
          show parseVal (fuel + 1) (['f', 'a', 'l', 's', 'e'] ++ rest) = _
          rw [parseVal.eq_def]
          simp [expectChars]
      | num n =>
        show parseVal (fuel + 1) (intChars n ++ rest) = _
        by_cases hn : n < 0
        · rw [intChars, if_pos hn, List.cons_append, parseVal.eq_def]
          simp [parseNatFrom_natDigits _ _ hrest, abs_of_neg hn]
        · rw [intChars, if_neg hn]
          obtain ⟨c, t, hct, hdig⟩ := natDigits_head n.toNat
          obtain ⟨-, -, -, -, e5, e6, e7, e8, e9, e10, e11⟩ := isDigitCh_excludes hdig
          rw [hct, List.cons_append, parseVal.eq_def]
          simp only [e5, e6, e7, e8, e9, e10, e11, hdig, if_true, ite_true,
            ite_false, if_false]
          rw [← List.cons_append, ← hct, parseNatFrom_natDigits _ _ hrest]
          simp [Int.toNat_of_nonneg (not_lt.mp hn)]
      | str s =>
        show parseVal (fuel + 1) (strChars s ++ rest) = _
        rw [strChars, List.cons_append, parseVal.eq_def]
        simp [parseStrBody_escape, string_eta]
      | arr xs =>
        show parseVal (fuel + 1) (('[' :: (renderArr xs ++ [']'])) ++ rest) = _
        rw [List.cons_append, parseVal.eq_def]
        have hlenA : (renderArr xs).length < fuel := by
          have : (renderJ (.arr xs)).length = (renderArr xs).length + 2 := by
            simp [renderJ]
          omega
        simp [ihA xs rest hlenA]
      | obj kvs =>
        show parseVal (fuel + 1) (('\x7b' :: (renderObj kvs ++ ['\x7d'])) ++ rest) = _
        rw [List.cons_append, parseVal.eq_def]
        have hlenO : (renderObj kvs).length < fuel := by
          have : (renderJ (.obj kvs)).length = (renderObj kvs).length + 2 := by
            simp [renderJ]
          omega
        simp [ihO kvs rest hlenO]
    · -- array tails
      intro xs rest hlen
      match xs with
      | [] =>
        show parseElems (fuel + 1) (']' :: rest) = _
        rw [parseElems.eq_def]
        simp
      | [x] =>
        show parseElems (fuel + 1) (renderJ x ++ ']' :: rest) = _
        obtain ⟨c, t, hct, hne1, -, -, -⟩ := renderJ_head x
        rw [parseElems.eq_def]
        simp only [hct, List.cons_append, List.head?_cons, List.tail_cons]
        rw [if_neg (by simp [hne1]), ← List.cons_append, ← hct]
        have hx : (renderJ x).length ≤ fuel := by
          have : renderArr [x] = renderJ x := by simp [renderArr]
          rw [this] at hlen; omega
        rw [ihV x (']' :: rest) hx (by simp [headIsDigit_cons]; decide)]
        simp
      | x :: y :: xs' =>
        show parseElems (fuel + 1)
          ((renderJ x ++ ',' :: ' ' :: renderArr (y :: xs')) ++ ']' :: rest) = _
        obtain ⟨c, t, hct, hne1, -, -, -⟩ := renderJ_head x
        have hlen' : (renderArr (x :: y :: xs')).length =
            (renderJ x).length + 2 + (renderArr (y :: xs')).length := by
          simp [renderArr]; omega
        rw [List.append_assoc]
        rw [parseElems.eq_def]
        simp only [hct, List.cons_append, List.head?_cons, List.tail_cons]
        rw [if_neg (by simp [hne1]), ← List.cons_append, ← hct]
        have hx : (renderJ x).length ≤ fuel := by rw [hlen'] at hlen; omega
        have hsep : headIsDigit (',' :: ' ' :: (renderArr (y :: xs') ++ ']' :: rest)) = false := by
          simp [headIsDigit_cons]; decide
        have hys : (renderArr (y :: xs')).length < fuel := by rw [hlen'] at hlen; omega
        rw [ihV x _ hx hsep]
        simp [skipSpaces_cons_space, skipSpaces_renderArr_cons, ihA (y :: xs') rest hys]
    · -- object tails
      intro kvs rest hlen
      match kvs with
      | [] =>
        show parseFields (fuel + 1) ('\x7d' :: rest) = _
        rw [parseFields.eq_def]
        simp
      | [(k, v)] =>
        show parseFields (fuel + 1)
          ((strChars k ++ ':' :: ' ' :: renderJ v) ++ '\x7d' :: rest) = _
        have hlen1 : (renderObj [(k, v)]).length =
            (strChars k).length + 2 + (renderJ v).length := by
          simp [renderObj]; omega
        have hv : (renderJ v).length ≤ fuel := by rw [hlen1] at hlen; omega
        rw [strChars, parseFields.eq_def]
        simp only [List.cons_append, List.head?_cons, List.tail_cons,
          List.append_assoc, List.singleton_append]
        simp [parseStrBody_escape, skipSpaces_cons_space, skipSpaces_renderJ,
          ihV v ('\x7d' :: rest) hv (by simp [headIsDigit_cons]; decide), string_eta]
      | (k, v) :: f :: fs' =>
        show parseFields (fuel + 1)
          ((strChars k ++ ':' :: ' ' :: renderJ v ++ ',' :: ' ' :: renderObj (f :: fs'))
            ++ '\x7d' :: rest) = _
        have hlen2 : (renderObj ((k, v) :: f :: fs')).length =
            (strChars k).length + 2 + (renderJ v).length + 2 +
              (renderObj (f :: fs')).length := by
          simp [renderObj]; omega
        have hv : (renderJ v).length ≤ fuel := by rw [hlen2] at hlen; omega
        have hfs : (renderObj (f :: fs')).length < fuel := by rw [hlen2] at hlen; omega
        have hsep : headIsDigit (',' :: ' ' :: (renderObj (f :: fs') ++ '\x7d' :: rest)) = false := by
          simp [headIsDigit_cons]; decide
        rw [strChars, parseFields.eq_def]
        simp only [List.cons_append, List.head?_cons, List.tail_cons,
          List.append_assoc, List.singleton_append]
        simp [parseStrBody_escape, skipSpaces_cons_space, skipSpaces_renderJ,
          ihV v (',' :: ' ' :: (renderObj (f :: fs') ++ '\x7d' :: rest)) hv hsep,
          skipSpaces_renderObj_cons, ihO (f :: fs') rest hfs, string_eta]

/-! ### Top-level serialization round trip -/

theorem json_loads_json_dumps (v : Json) : json_loads (json_dumps v) = some v := by
  have h := (parse_render (3 * (renderJ v).length + 3)).1 v [] (by omega) rfl
  rw [List.append_nil] at h
  unfold json_loads json_dumps
  have hs : skipSpaces (renderJ v) = renderJ v := by
    simpa using skipSpaces_renderJ v []
  rw [hs, h]
  simp [skipSpaces]

/-! ### Association-list lemmas -/

theorem lookupA_setA_self {α : Type} (m : List (String × α)) (k : String) (v : α) :
    lookupA (setA m k v) k = some v := by
  induction m with
  | nil => simp [setA, lookupA]
  | cons p rest ih =>
    obtain ⟨k', w⟩ := p
    by_cases h : k' = k
    · subst h
      simp [setA, lookupA]
    · simp [setA, lookupA, h, ih]

theorem removeA_setA_fresh {α : Type} (m : List (String × α)) (k : String) (v : α)
    (h : lookupA m k = none) : removeA (setA m k v) k = m := by
  induction m with
  | nil => simp [setA, removeA]
  | cons p rest ih =>
    obtain ⟨k', w⟩ := p
    by_cases hk : k' = k
    · subst hk
      simp [lookupA] at h
    · simp only [lookupA, if_neg hk] at h
      simp [setA, removeA, hk, ih h]

/-! ### Retry-supervisor delay schedule (claim C2) -/

theorem min_double_pow (i : Nat) :
    min (min (2 ^ i) 60 * 2) 60 = min (2 ^ (i + 1)) 60 := by
  rcases le_or_lt (2 ^ i) 60 with h | h
  · rw [min_eq_left h, pow_succ]
  · have h1 : 60 ≤ 2 ^ i := by omega
    have h2 : 60 ≤ 2 ^ (i + 1) := by
      have : 2 ^ i ≤ 2 ^ (i + 1) := Nat.pow_le_pow_right (by omega) (by omega)
      omega
    rw [min_eq_right h1, min_eq_right h2]
    omega

theorem run_event_listener_delays_schedule :
    ∀ outs : List RunOutcome, (∀ o ∈ outs, o ≠ RunOutcome.cancelled) →
      ∀ i, run_event_listener_delays (min (2 ^ i) 60) outs =
        (List.range outs.length).map (fun j => min (2 ^ (i + j)) 60) := by
  intro outs
  induction outs with
  | nil => intro _ i; simp [run_event_listener_delays]
  | cons o rest ih =>
    intro hnc i
    have ho := hnc o (List.mem_cons_self o rest)
    have htail := ih (fun x hx => hnc x (List.mem_cons_of_mem o hx)) (i + 1)
    have hcons : min (2 ^ i) 60 ::
        (List.range rest.length).map (fun j => min (2 ^ (i + 1 + j)) 60) =
        (List.range (o :: rest).length).map (fun j => min (2 ^ (i + j)) 60) := by
      rw [List.length_cons, List.range_succ_eq_map]
      simp only [List.map_cons, List.map_map, Nat.add_zero, Function.comp_def]
      congr 1
      have hf : (fun j => 2 ^ (i + 1 + j) ⊓ 60) =
          (fun x : Nat => 2 ^ (i + x.succ) ⊓ 60) := by
        funext j
        congr 2
        omega
      rw [hf]
    cases o with
    | cancelled => exact absurd rfl ho
    | failed =>
      show min (2 ^ i) 60 ::
          run_event_listener_delays (min (min (2 ^ i) 60 * 2) 60) rest = _
      rw [min_double_pow, htail]
      exact hcons
    | closedNormally d =>
      show min (2 ^ i) 60 ::
          run_event_listener_delays (min (min (2 ^ i) 60 * 2) 60) rest = _
      rw [min_double_pow, htail]
      exact hcons

/-- C2 (counterexample): run the supervisor model at the claim's inputs.
After one failed run (N = 1) the delay slept before reconnection attempt 2
is 1, not the claimed `min(1 * 2^1, 60) = 2`; and after a successful run
that dispatched messages, the delay slept following the next failure is 2,
not the claimed floor 1 - `retry_delay` is never written back to the
floor. -/
theorem c2_counterexample :
    run_event_listener_delays 1 [RunOutcome.failed] = [1] ∧
    (1 : Nat) ≠ min (1 * 2 ^ 1) 60 ∧
    run_event_listener_delays 1
      [RunOutcome.closedNormally 3, RunOutcome.failed] = [1, 2] ∧
    (2 : Nat) ≠ 1 := by
  refine ⟨rfl, by decide, rfl, by decide⟩

/-- C2 (amended): in `EventsProcess.run_event_listener_with_redis`, for any
sequence of completed runs not cut short by cancellation, the delay slept
after the (j+1)-st run - failed or successfully dispatching alike - equals
`min(floor * 2^j, ceiling)` with floor 1s and ceiling 60s; in particular
after N ≥ 1 consecutive connection failures the delay slept before
reconnection attempt N+1 is `min(floor * 2^(N-1), ceiling)`, one doubling
behind the claimed `min(floor * 2^N, ceiling)`.  The schedule depends only
on how many runs completed, not on their outcomes: the delay is never
reset to the floor after a run that dispatched messages. -/
theorem c2_delay_doubles_never_resets (outs : List RunOutcome)
    (hnc : ∀ o ∈ outs, o ≠ RunOutcome.cancelled) :
    run_event_listener_delays 1 outs =
      (List.range outs.length).map (fun j => min (2 ^ j) 60) ∧
    ∀ N, 1 ≤ N → N ≤ outs.length →
      (run_event_listener_delays 1 outs)[N - 1]? =
        some (min (1 * 2 ^ (N - 1)) 60) := by
  have h := run_event_listener_delays_schedule outs hnc 0
  norm_num at h
  refine ⟨h, ?_⟩
  intro N h1 h2
  rw [h]
  have hlt : N - 1 < outs.length := by omega
  rw [List.getElem?_map, List.getElem?_range hlt]
  norm_num

theorem c2_witness :
    run_event_listener_delays 1
      [RunOutcome.failed, RunOutcome.failed, RunOutcome.closedNormally 2,
       RunOutcome.failed] = [1, 2, 4, 8] ∧
    (run_event_listener_delays 1
      [RunOutcome.failed, RunOutcome.failed, RunOutcome.closedNormally 2,
       RunOutcome.failed])[0]? = some (min (1 * 2 ^ 0) 60) := by
  have h := c2_delay_doubles_never_resets
    [RunOutcome.failed, RunOutcome.failed, RunOutcome.closedNormally 2,
     RunOutcome.failed] (by decide)
  refine ⟨by rw [h.1]; rfl, by simpa using h.2 1 (by decide) (by decide)⟩

/-- C6: a payload published on a channel is observed by a subscriber of that
channel with its deserialized payload equal to the original published value
(serialize-then-deserialize round trip), and received bytes that fail JSON
deserialization are returned as the raw payload unchanged by `get_message`
instead of raising. -/
theorem c6_pubsub_roundtrip_raw_fallback :
    (∀ (v : Json) (sub : Subscriber) (c : String),
      c ∈ sub.channels → sub.pending = [] →
      (get_message (publish c v sub)).1 = some ⟨"message", c, .parsed v⟩) ∧
    (∀ (sub : Subscriber) (c : String) (raw : List Char),
      json_loads raw = none → sub.pending = [⟨"message", c, raw⟩] →
      (get_message sub).1 = some ⟨"message", c, .raw raw⟩) := by
  constructor
  · intro v sub c hc hp
    simp [publish, hc, hp, get_message, redis_serialize, json_loads_json_dumps v]
  · intro sub c raw hraw hp
    simp [get_message, hp, hraw]

theorem c6_witness :
    (get_message (publish "requests" (.obj [("a", .arr [.num 1, .str "x"])])
        ⟨["requests"], []⟩)).1 =
      some ⟨"message", "requests", .parsed (.obj [("a", .arr [.num 1, .str "x"])])⟩ ∧
    (get_message ⟨["requests"], [⟨"message", "requests", ("nope").data⟩]⟩).1 =
      some ⟨"message", "requests", .raw (("nope").data)⟩ :=
  ⟨c6_pubsub_roundtrip_raw_fallback.1 _ _ _ (by simp) rfl,
   c6_pubsub_roundtrip_raw_fallback.2 _ _ _ rfl rfl⟩

/-- C1: `start_conversation_thread` with a live registry entry returns the
existing handle and changes nothing (no second unit); for an absent key,
two `open` calls - serialized by `thread_lock`, whichever order the race
resolves to - launch exactly one thread: the second call returns the first
call's handle and state unchanged, and exactly one spawn was logged. -/
theorem c1_open_idempotent_one_unit (s : ConvState) (key : String) :
    (∀ t, lookupA s.conversation_threads key = some t →
      start_conversation_thread key s = (t, s)) ∧
    (lookupA s.conversation_threads key = none →
      (start_conversation_thread key
          (start_conversation_thread key s).2).1 =
        (start_conversation_thread key s).1 ∧
      (start_conversation_thread key
          (start_conversation_thread key s).2).2 =
        (start_conversation_thread key s).2 ∧
      (start_conversation_thread key s).2.spawned =
        s.spawned ++ [(start_conversation_thread key s).1]) := by
  constructor
  · intro t ht
    simp [start_conversation_thread, ht]
  · intro habs
    simp [start_conversation_thread, habs, lookupA_setA_self]

theorem c1_witness :
    start_conversation_thread "conv" ⟨[("conv", 7)], [("conv", false)], 8, [7]⟩ =
      (7, ⟨[("conv", 7)], [("conv", false)], 8, [7]⟩) ∧
    (start_conversation_thread "conv" ⟨[], [], 0, []⟩).2.spawned =
      ([] : List Nat) ++ [(start_conversation_thread "conv" ⟨[], [], 0, []⟩).1] :=
  ⟨(c1_open_idempotent_one_unit _ "conv").1 7 rfl,
   ((c1_open_idempotent_one_unit ⟨[], [], 0, []⟩ "conv").2 rfl).2.2⟩

/-- C8 (counterexample): a reachable state refutes the claim.  Open a
session for "c1", then let its unit exit (connection-establishment failure;
the `finally:` cleanup removes only the thread-registry entry).  In the
resulting state no registry entry exists for "c1", yet `close("c1")` still
sets the shutdown event and takes the shutdown branch rather than the
logged no-op: the state changes. -/
theorem c8_counterexample :
    lookupA ((open_conversation_websocket (fun j => j) "c1" none false
        (fun _ => false) []
        (start_conversation_thread "c1" ⟨[], [], 0, []⟩).2).2.2).conversation_threads
      "c1" = none ∧
    shutdown_conversation_thread "c1"
        ((open_conversation_websocket (fun j => j) "c1" none false
          (fun _ => false) []
          (start_conversation_thread "c1" ⟨[], [], 0, []⟩).2).2.2) ≠
      ((open_conversation_websocket (fun j => j) "c1" none false
        (fun _ => false) []
        (start_conversation_thread "c1" ⟨[], [], 0, []⟩).2).2.2) := by
  refine ⟨rfl, by decide⟩

/-- C8 (amended): `close(key)` sets the ShutdownSignal exactly when a
shutdown-event entry exists for `key` - an entry that can outlive the
thread-registry entry, because unit cleanup removes only
`conversation_threads` - logs a no-op changing nothing when none does, and
returns without blocking on or modifying the thread registry or spawning
anything. -/
theorem c8_close_semantics (s : ConvState) (key : String) :
    (shutdown_conversation_thread key s).conversation_threads =
      s.conversation_threads ∧
    (shutdown_conversation_thread key s).spawned = s.spawned ∧
    (shutdown_conversation_thread key s).nextThread = s.nextThread ∧
    (lookupA s.shutdown_events key = none →
      shutdown_conversation_thread key s = s) ∧
    (∀ b, lookupA s.shutdown_events key = some b →
      (shutdown_conversation_thread key s).shutdown_events =
        setA s.shutdown_events key true ∧
      lookupA (shutdown_conversation_thread key s).shutdown_events key =
        some true) := by
  rcases h : lookupA s.shutdown_events key with _ | b0 <;>
    simp [shutdown_conversation_thread, h, lookupA_setA_self]

theorem c8_witness :
    (shutdown_conversation_thread "k" ⟨[], [("k", false)], 3, []⟩).shutdown_events =
      setA [("k", false)] "k" true ∧
    lookupA (shutdown_conversation_thread "k"
        ⟨[], [("k", false)], 3, []⟩).shutdown_events "k" = some true ∧
    shutdown_conversation_thread "q" ⟨[], [], 0, []⟩ = ⟨[], [], 0, []⟩ :=
  ⟨((c8_close_semantics ⟨[], [("k", false)], 3, []⟩ "k").2.2.2.2 false rfl).1,
   ((c8_close_semantics ⟨[], [("k", false)], 3, []⟩ "k").2.2.2.2 false rfl).2,
   (c8_close_semantics ⟨[], [], 0, []⟩ "q").2.2.2.1 rfl⟩

/-- C4: on a stream whose valid `data:` frames are dispatched without the
handler raising, the reader invokes the handler exactly once per valid
frame, in stream order (the dispatched trace equals `validFrames`),
discards every malformed `data:` frame and every heartbeat, and reaches the
end of the stream - no malformed frame terminates the loop early. -/
theorem c4_reader_dispatches_valid_frames (handler : Json → Except PyErr Unit)
    (lines : List (List Char))
    (hok : ∀ d ∈ validFrames lines, handler d = .ok ()) :
    readStream handler false lines = (validFrames lines, .endOfStream) := by
  induction lines with
  | nil => simp [readStream, validFrames]
  | cons line rest ih =>
    by_cases hsw : startsWithL ['d', 'a', 't', 'a', ':'] (pyStrip line) = true
    · rcases hp : json_loads (pyStrip ((pyStrip line).drop 5)) with _ | d
      · have hv : validFrames (line :: rest) = validFrames rest := by
          simp [validFrames, hsw, hp]
        rw [hv] at hok ⊢
        simp [readStream, hsw, hp, ih hok]
      · have hv : validFrames (line :: rest) = d :: validFrames rest := by
          simp [validFrames, hsw, hp]
        have hd : handler d = .ok () := hok d (by rw [hv]; simp)
        have hok' : ∀ x ∈ validFrames rest, handler x = .ok () := fun x hx =>
          hok x (by rw [hv]; simp [hx])
        rw [hv]
        simp [readStream, hsw, hp, hd, ih hok']
    · have hv : validFrames (line :: rest) = validFrames rest := by
        simp [validFrames, hsw]
      rw [hv] at hok ⊢
      simp [readStream, hsw, ih hok]

theorem c4_witness :
    readStream (fun _ => Except.ok ()) false
      [("data: 5").data, (": hb").data, ("data: nope").data, ("junk").data,
        ("data: 7").data] =
      ([Json.num 5, Json.num 7], ReadExit.endOfStream) := by
  have h := c4_reader_dispatches_valid_frames (fun _ => Except.ok ())
    [("data: 5").data, (": hb").data, ("data: nope").data, ("junk").data,
      ("data: 7").data] (fun d _ => rfl)
  rw [h]
  rfl

/-- C9 (loop lemma): with the shutdown event never set, the receive loop
maps a trace of `prompt_query` frames to their derived responses one by
one, preserving order. -/
theorem convLoop_prompt_queries (handler : Json → Json) (contents : List Json) :
    ∀ i, convLoop handler (fun _ => false) i
      (contents.map (fun c => .frame (json_dumps (promptQueryMsg c)))) =
      (contents.map (fun c => prompt_response (handler c)), .starved) := by
  induction contents with
  | nil => intro i; simp [convLoop]
  | cons c rest ih =>
    intro i
    have h1 : pyGet (promptQueryMsg c) "type" = .ok (some (.str "prompt_query")) := rfl
    have h2 : pyIndex (promptQueryMsg c) "data" = .ok (.obj [("content", c)]) := rfl
    have h3 : pyIndex (.obj [("content", c)]) "content" = .ok c := rfl
    simp only [List.map_cons]
    rw [convLoop.eq_def]
    simp [json_loads_json_dumps (promptQueryMsg c), h1, h2, h3, isStr, ih (i + 1)]

/-- C9: a session fed well-formed frames A, B, C in that order - with no
shutdown requested - sends exactly the derived responses A', B', C' in that
order. -/
theorem c9_in_order_responses (handler : Json → Json) (a b c : Json) :
    convLoop handler (fun _ => false) 0
      [.frame (json_dumps (promptQueryMsg a)),
       .frame (json_dumps (promptQueryMsg b)),
       .frame (json_dumps (promptQueryMsg c))] =
      ([prompt_response (handler a), prompt_response (handler b),
        prompt_response (handler c)], .starved) := by
  have h := convLoop_prompt_queries handler [a, b, c] 0
  simpa using h

/-- C7 (loop lemma): once the shutdown event reads set, the loop-head check
exits immediately: no recv outcome is consumed, nothing further is sent. -/
theorem convLoop_flag_true (handler : Json → Json) (i : Nat)
    (events : List RecvEvent) :
    convLoop handler (fun _ => true) i events = ([], .shutdownObserved) := by
  rw [convLoop.eq_def]
  simp

/-- C7: open a session for an absent key, then `close(key)`: the shutdown
event is set; the unit observes it at its very next loop-head check (these
checks recur at least once per bounded recv timeout), processes no further
event, exits, and its `finally:` cleanup removes its own registry entry;
a subsequent `open(key)` then starts a fresh unit - a new thread handle and
a new spawn (hence a new connection attempt) - instead of joining the old
one. -/
theorem c7_close_observed_fresh_reopen (handler : Json → Json) (s0 : ConvState)
    (key : String) (events : List RecvEvent)
    (habs : lookupA s0.conversation_threads key = none) :
    lookupA (shutdown_conversation_thread key
        (start_conversation_thread key s0).2).shutdown_events key = some true ∧
    (open_conversation_websocket handler key none true (fun _ => true) events
        (shutdown_conversation_thread key
          (start_conversation_thread key s0).2)).1 = [] ∧
    (open_conversation_websocket handler key none true (fun _ => true) events
        (shutdown_conversation_thread key
          (start_conversation_thread key s0).2)).2.1 =
      .loopExit .shutdownObserved ∧
    lookupA ((open_conversation_websocket handler key none true (fun _ => true)
        events (shutdown_conversation_thread key
          (start_conversation_thread key s0).2)).2.2).conversation_threads key =
      none ∧
    (start_conversation_thread key
        ((open_conversation_websocket handler key none true (fun _ => true)
          events (shutdown_conversation_thread key
            (start_conversation_thread key s0).2)).2.2)).1 ≠
      (start_conversation_thread key s0).1 ∧
    (start_conversation_thread key
        ((open_conversation_websocket handler key none true (fun _ => true)
          events (shutdown_conversation_thread key
            (start_conversation_thread key s0).2)).2.2)).2.spawned =
      s0.spawned ++ [s0.nextThread, s0.nextThread + 1] := by
  simp only [start_conversation_thread, habs]
  simp only [shutdown_conversation_thread, lookupA_setA_self]
  simp only [open_conversation_websocket, convLoop_flag_true, if_true, conv_cleanup]
  simp [removeA_setA_fresh _ _ _ habs, habs, lookupA_setA_self,
    start_conversation_thread]

theorem c7_witness :
    lookupA (shutdown_conversation_thread "c1"
        (start_conversation_thread "c1" ⟨[], [], 0, []⟩).2).shutdown_events "c1" =
      some true ∧
    (start_conversation_thread "c1"
        ((open_conversation_websocket (fun j => j) "c1" none true (fun _ => true)
          [RecvEvent.timeout] (shutdown_conversation_thread "c1"
            (start_conversation_thread "c1" ⟨[], [], 0, []⟩).2)).2.2)).2.spawned =
      ([] : List Nat) ++ [0, 1] := by
  have h := c7_close_observed_fresh_reopen (fun j => j) ⟨[], [], 0, []⟩ "c1"
    [RecvEvent.timeout] rfl
  exact ⟨h.1, h.2.2.2.2.2⟩

/-- C10: every run of `open_worker_websocket` sends no message and never
reaches its receive loop; whenever the connect succeeds, the run ends in
the caught `NameError` from the unbound `content` at the initial-payload
check.  The result never depends on the inbound events, since the loop that
would consume them is dead code. -/
theorem c10_worker_unit_raises_name_error (handler : Json → Json)
    (connectOk : Bool) (flagAt : Nat → Bool) (events : List RecvEvent) :
    (open_worker_websocket handler connectOk flagAt events).1 = [] ∧
    (∀ ex, (open_worker_websocket handler connectOk flagAt events).2 ≠
      .loopFinished ex) ∧
    (connectOk = true →
      (open_worker_websocket handler connectOk flagAt events).2 =
        .nameErrorCaught) ∧
    open_worker_websocket handler connectOk flagAt events =
      open_worker_websocket handler connectOk flagAt [] := by
  cases connectOk <;> simp [open_worker_websocket]

theorem c10_witness :
    (open_worker_websocket (fun j => j) true (fun _ => false)
        [RecvEvent.frame ("x").data]).2 = WorkerExit.nameErrorCaught :=
  (c10_worker_unit_raises_name_error (fun j => j) true (fun _ => false)
    [RecvEvent.frame ("x").data]).2.2.1 rfl

/-- C5 (helper): every error response `on_event` returns carries the request
id of the dispatched message (`null` standing for an absent id, as in the
Python `None`). -/
theorem on_event_error_response_id (env : HandlerEnv) (kvs : List (String × Json))
    (r : Json) (hok : on_event env (.obj kvs) = .ok r)
    (herr : (jget r "error").isSome = true) :
    jget r "id" = some ((lookupA kvs "id").getD .null) := by
  simp only [on_event, pyGet] at hok
  repeat' split at hok
  all_goals try (injection hok with hok)
  all_goals try subst hok
  all_goals simp_all [rpcResult, rpcError, jget, lookupA]

/-- C5: dispatching `worker_ping` with id "abc" returns the `pong` result
carrying id "abc" (given the pong side effect completes); dispatching any
unknown method (here "bogus") with id "x" returns - for every handler
environment - an error response whose id is "x" and whose error code is
-32601, which is not null; and in general every error response returned by
`on_event` carries the original request id. -/
theorem c5_ping_pong_and_error_id (env : HandlerEnv)
    (hpong : env.workerPong = .ok ()) :
    on_event env (.obj [("method", .str "worker_ping"), ("id", .str "abc")]) =
      .ok (.obj [("jsonrpc", .str "2.0"), ("result", .str "pong"),
        ("id", .str "abc")]) ∧
    (∀ envB : HandlerEnv, ∃ r : Json,
      on_event envB (.obj [("method", .str "bogus"), ("id", .str "x")]) = .ok r ∧
      jget r "id" = some (.str "x") ∧
      ∃ eobj code, jget r "error" = some eobj ∧
        jget eobj "code" = some (.num code) ∧ Json.num code ≠ Json.null) ∧
    (∀ (envB : HandlerEnv) (kvs : List (String × Json)) (r : Json),
      on_event envB (.obj kvs) = .ok r → (jget r "error").isSome = true →
      jget r "id" = some ((lookupA kvs "id").getD .null)) := by
  refine ⟨?_, ?_, fun envB kvs r h1 h2 => on_event_error_response_id envB kvs r h1 h2⟩
  · simp [on_event, pyGet, lookupA, isStr, hpong, rpcResult]
  · intro envB
    refine ⟨rpcError (-32601)
      ("Method " ++ squote ++ "bogus" ++ squote ++ " not found") (.str "x"),
      rfl, rfl, .obj [("code", .num (-32601)),
        ("message", .str ("Method " ++ squote ++ "bogus" ++ squote ++ " not found"))],
      -32601, rfl, rfl, fun h => Json.noConfusion h⟩

theorem c5_witness :
    on_event ⟨"w", none, .ok (), .ok (), .ok (), .ok ()⟩
        (.obj [("method", .str "worker_ping"), ("id", .str "abc")]) =
      .ok (.obj [("jsonrpc", .str "2.0"), ("result", .str "pong"),
        ("id", .str "abc")]) :=
  (c5_ping_pong_and_error_id ⟨"w", none, .ok (), .ok (), .ok (), .ok ()⟩ rfl).1

/-- C3 (counterexample): the claim says dispatch never raises and converts
handler exceptions into error responses.  At this concrete input - a
`worker_ping` whose `worker_pong()` call raises - `on_event` propagates the
exception to its caller instead of returning an error response. -/
theorem c3_counterexample :
    on_event ⟨"w", none, .error (.handlerError "boom"), .ok (), .ok (), .ok ()⟩
        (.obj [("method", .str "worker_ping"), ("id", .str "abc")]) =
      .error (.handlerError "boom") := rfl

/-- C3 (amended): for a dict-shaped control message, `on_event` raises
exactly the exceptions of the effect path its selected branch invokes -
handler-callable failures and `params` accesses propagate out of dispatch
to the reader loop (which catches only JSON decode errors) instead of being
converted into error responses; unknown methods still yield error
responses, and dispatch returns normally whenever the selected path
completes. -/
theorem c3_dispatch_raises_iff_selected_raises (env : HandlerEnv) (data : Json)
    (kvs : List (String × Json)) (e : PyErr) (hdata : data = .obj kvs) :
    on_event env data = .error e ↔ selectedOutcome env data = .error e := by
  subst hdata
  have hm : pyGet (Json.obj kvs) "method" = .ok (lookupA kvs "method") := rfl
  have hp : pyGet (Json.obj kvs) "params" = .ok (lookupA kvs "params") := rfl
  have hi : pyGet (Json.obj kvs) "id" = .ok (lookupA kvs "id") := rfl
  simp only [on_event, selectedOutcome, hm, hp, hi]
  split_ifs with h1 h2 h3 h4 h5 h6
  · rcases henv : env.workerPong with e1 | u1 <;> simp [henv]
  · rcases henv : env.redisClient with _ | u0 <;> simp [henv]
  · simp
  · rcases henv : env.workerStartWs with e2 | u2 <;> simp [henv]
  · rcases hpc : pyGet ((lookupA kvs "params").getD (.obj [])) "content"
      with e5 | oc
    · simp [hpc]
    · rcases hpi : pyGet ((lookupA kvs "params").getD (.obj []))
        "conversation_id" with e6 | oi
      · simp [hpc, hpi]
      · rcases henv : env.startConv with e3 | u3 <;> simp [hpc, hpi, henv]
  · rcases hpi : pyGet ((lookupA kvs "params").getD (.obj []))
      "conversation_id" with e6 | oi
    · simp [hpi]
    · rcases henv : env.shutdownConv with e4 | u4 <;> simp [hpi, henv]
  · simp

theorem c3_witness :
    on_event ⟨"w", none, .ok (), .ok (), .error (.handlerError "threadfail"), .ok ()⟩
        (.obj [("method", .str "conversation_open_websocket"),
          ("params", .obj [("content", .null), ("conversation_id", .str "c9")]),
          ("id", .str "i1")]) =
      .error (.handlerError "threadfail") :=
  (c3_dispatch_raises_iff_selected_raises
    ⟨"w", none, .ok (), .ok (), .error (.handlerError "threadfail"), .ok ()⟩ _ _ _ rfl).mpr rfl
